import Mathlib

/-!
Verification of the PrintCountPay core: a shallow embedding in Lean 4 of the
SNMP identifier/value model, the counter resolver, the walk loop, the GET
batching and retry logic, the CIDR range enumerator and the Ricoh device
profiler, together with theorems settling the specified properties.

Rust strings are embedded as `List Char`; machine integers as `Nat`/`Int`
with explicit `% 2^w` where wrap-around matters.
-/

/-- Rust `&str` / `String`, embedded as a list of characters. -/
abbrev Str := List Char

/-- `Oid(pub Vec<u32>)` from `snmp.rs`: an ordered sequence of numeric arcs. -/
structure Oid where
  arcs : List Nat
deriving DecidableEq, Repr

/-- Decimal digits of `n`, most significant first, via explicit fuel
(mirrors Rust's `Display for u32`). Empty for `n = 0`. -/
def natDigitsAux : Nat → Nat → Str
  | 0, _ => []
  | fuel + 1, n =>
    if n = 0 then []
    else natDigitsAux fuel (n / 10) ++ [Char.ofNat (48 + n % 10)]

/-- Canonical decimal rendering of a natural number (Rust `u32`/`u64` Display). -/
def natToChars (n : Nat) : Str :=
  if n = 0 then ['0'] else natDigitsAux (n + 1) n

/-- Dot-join a list of components (Rust's `Display for Oid` in `snmp.rs`). -/
def dotJoin : List Str → Str
  | [] => []
  | [s] => s
  | s :: rest => s ++ '.' :: dotJoin rest

/-- `impl fmt::Display for Oid` from `snmp.rs`: dot-joined decimal arcs. -/
def oidToChars (o : Oid) : Str :=
  dotJoin (o.arcs.map natToChars)

/-- Rust `str::split('.')`: splits at every dot, keeping empty components. -/
def splitDot : Str → List Str
  | [] => [[]]
  | c :: rest =>
    if c = '.' then [] :: splitDot rest
    else
      match splitDot rest with
      | [] => [[c]]
      | r :: rs => (c :: r) :: rs

/-- Rust `u32::from_str`: optional leading `+`, at least one digit, all digits,
value below `2^32` (overflow during accumulation is an error). -/
def parseU32 (cs : Str) : Option Nat :=
  let body := if cs.head? = some '+' then cs.tail else cs
  if body = [] then none
  else if body.all Char.isDigit then
    let v := body.foldl (fun a c => a * 10 + (c.toNat - 48)) 0
    if v < 2 ^ 32 then some v else none
  else none

/-- `impl FromStr for Oid` from `snmp.rs`: split on dots, skip empty
components, parse each remaining component as `u32`; error when a component
fails to parse or when no components remain. -/
def oidFromChars (cs : Str) : Option Oid :=
  let rec go : List Str → Option (List Nat)
    | [] => some []
    | part :: rest =>
      if part = [] then go rest
      else
        match parseU32 part with
        | none => none
        | some v => (go rest).map (v :: ·)
  match go (splitDot cs) with
  | none => none
  | some parts => if parts = [] then none else some ⟨parts⟩

/-- `SnmpValue` from `snmp.rs`: the tagged protocol value union.
Byte strings are lists of byte values; `other` carries the diagnostic label. -/
inductive SnmpValue where
  | null
  | integer (v : Int)
  | unsigned32 (v : Nat)
  | counter32 (v : Nat)
  | counter64 (v : Nat)
  | timeticks (v : Nat)
  | octetString (bytes : List Nat)
  | objectIdentifier (o : Oid)
  | ipAddress (b0 b1 b2 b3 : Nat)
  | opaqueBytes (bytes : List Nat)
  | other (label : String)
deriving DecidableEq, Repr

/-- `SnmpValue::as_u64` from `snmp.rs`: numeric coercion, defined for the
unsigned/counter variants and for non-negative signed integers. -/
def SnmpValue.as_u64 : SnmpValue → Option Nat
  | .unsigned32 v => some v
  | .counter32 v => some v
  | .counter64 v => some v
  | .integer v => if 0 ≤ v then some v.toNat else none
  | _ => none

/-- Modelled from the spec: `SnmpValue::is_missing` is called from
`discovery.rs` (and the UI) but its definition is not present under `src/`.
Per the spec it is true for null and any vendor-specific "no such
object/instance" sentinel — which `map_snmp2_value` (`snmp.rs`) renders as
the `other "NoSuchObject"` / `other "NoSuchInstance"` values — and false for
every other variant. -/
def SnmpValue.is_missing : SnmpValue → Bool
  | .null => true
  | .other label => label == "NoSuchObject" || label == "NoSuchInstance"
  | _ => false

/-- `SnmpVarBind` from `snmp.rs`: an (identifier, value) pair. -/
structure SnmpVarBind where
  oid : Oid
  value : SnmpValue
deriving DecidableEq, Repr

/-- Rust `str::trim`: strip whitespace from both ends. -/
def trimChars (cs : Str) : Str :=
  ((cs.dropWhile Char.isWhitespace).reverse.dropWhile Char.isWhitespace).reverse

/-- Rust `str::split_once('/')`: split at the first slash, if any. -/
def splitOnceSlash : Str → Option (Str × Str)
  | [] => none
  | c :: rest =>
    if c = '/' then some ([], rest)
    else (splitOnceSlash rest).map (fun p => (c :: p.1, p.2))

/-- One octet of Rust's `Ipv4Addr` parser (external std): all digits, no
leading zero, value at most 255. -/
def parseOctet (cs : Str) : Option Nat :=
  if cs = [] then none
  else if cs.all Char.isDigit then
    if 1 < cs.length ∧ cs.head? = some '0' then none
    else
      let v := cs.foldl (fun a c => a * 10 + (c.toNat - 48)) 0
      if v ≤ 255 then some v else none
  else none

/-- Rust's `Ipv4Addr::from_str` (external std): exactly four octets joined by
dots; result as the big-endian `u32` value of the address. -/
def parseIpv4 (cs : Str) : Option Nat :=
  match splitDot cs with
  | [a, b, c, d] =>
    match parseOctet a, parseOctet b, parseOctet c, parseOctet d with
    | some va, some vb, some vc, some vd =>
      some (((va * 256 + vb) * 256 + vc) * 256 + vd)
    | _, _, _, _ => none
  | _ => none

/-- Rust's `u8::from_str` (external std): optional leading `+`, all digits,
value below 256. -/
def parseU8 (cs : Str) : Option Nat :=
  let body := if cs.head? = some '+' then cs.tail else cs
  if body = [] then none
  else if body.all Char.isDigit then
    let v := body.foldl (fun a c => a * 10 + (c.toNat - 48)) 0
    if v < 2 ^ 8 then some v else none
  else none

/-- `prefix_to_mask` from `discovery.rs`: the network mask of a prefix
length, as a 32-bit value. -/
def prefix_to_mask (p : Nat) : Nat :=
  if p = 0 then 0 else ((2 ^ 32 - 1) <<< (32 - p)) % 2 ^ 32

/-- `CidrRange` from `discovery.rs`.  The Rust fields `end` and `prefix` are
Lean keywords/reserved words and are embedded as `stop` and `prefixLen`; the
network address is kept as its `u32` value. -/
structure CidrRange where
  start : Nat
  stop : Nat
  network : Nat
  prefixLen : Nat
deriving DecidableEq, Repr

/-- The arithmetic core of `CidrRange::parse` (`discovery.rs`, lines 73-89):
masking, network/broadcast boundaries, and the usable host range (excluding
network/broadcast for prefixes up to 30).  The broadcast complement `!mask`
is `2^32 - 1 - mask`; `saturating_sub(1)` is `Nat` subtraction. -/
def cidrMake (ip_u32 : Nat) (p : Nat) : CidrRange :=
  let mask := prefix_to_mask p
  let network_u32 := ip_u32 &&& mask
  let broadcast_u32 := network_u32 ||| ((2 ^ 32 - 1) - mask)
  if p ≤ 30 then
    ⟨network_u32 + 1, broadcast_u32 - 1, network_u32, p⟩
  else
    ⟨network_u32, broadcast_u32, network_u32, p⟩

/-- `CidrRange::parse` from `discovery.rs`: trim, split at the slash, parse
address and prefix length, reject prefixes above 32, then compute the range. -/
def cidrParse (input : Str) : Option CidrRange :=
  let value := trimChars input
  match splitOnceSlash value with
  | none => none
  | some (addr, prefixPart) =>
    match parseIpv4 addr with
    | none => none
    | some ip =>
      match parseU8 prefixPart with
      | none => none
      | some p => if 32 < p then none else some (cidrMake ip p)

/-- The broadcast address of a parsed range, recomputed from its fields. -/
def broadcastOf (r : CidrRange) : Nat :=
  r.network ||| ((2 ^ 32 - 1) - prefix_to_mask r.prefixLen)

/-- `CidrIter` from `discovery.rs`. -/
structure CidrIter where
  current : Nat
  stop : Nat
deriving DecidableEq, Repr

/-- `CidrIter::next` from `discovery.rs`: yield `current` while it does not
exceed `stop`, advancing with a `u32` saturating increment. -/
def cidrNext (it : CidrIter) : Option (Nat × CidrIter) :=
  if it.stop < it.current then none
  else some (it.current, ⟨min (it.current + 1) (2 ^ 32 - 1), it.stop⟩)

/-- Run the iterator at most `fuel` steps: the addresses yielded, and whether
the iterator signalled its end (`none`) within the budget. -/
def iterRun : Nat → CidrIter → List Nat × Bool
  | 0, _ => ([], false)
  | fuel + 1, it =>
    match cidrNext it with
    | none => ([], true)
    | some (ip, it') =>
      let r := iterRun fuel it'
      (ip :: r.1, r.2)

/-- Rust `u8::to_ascii_lowercase` on one character. -/
def asciiLower (c : Char) : Char :=
  if 'A' ≤ c ∧ c ≤ 'Z' then Char.ofNat (c.toNat + 32) else c

/-- Rust `str::to_ascii_lowercase`. -/
def toLowerAscii (cs : Str) : Str :=
  cs.map asciiLower

/-- Rust `str::contains(needle)`: substring test. -/
def containsSub (needle : Str) : Str → Bool
  | [] => needle.isPrefixOf []
  | c :: rest => needle.isPrefixOf (c :: rest) || containsSub needle rest

/-- Rust `str::find(needle)`: index of the first substring occurrence. -/
def findSub (needle : Str) : Str → Option Nat
  | [] => if needle.isPrefixOf [] then some 0 else none
  | c :: rest =>
    if needle.isPrefixOf (c :: rest) then some 0
    else (findSub needle rest).map (· + 1)

/-- `RicohMatch` from `ricoh.rs`. -/
inductive RicohMatch where
  | NotRicoh
  | Unmapped
  | Known
deriving DecidableEq, Repr

/-- `CounterStrategy` from `ricoh.rs`. -/
inductive CounterStrategy where
  | BwColorPreferred
  | BwOnly
  | TotalOnlyStrategy
  | Unknown
deriving DecidableEq, Repr

/-- `CounterAvailability` from `ricoh.rs`. -/
structure CounterAvailability where
  bw : Bool
  color : Bool
  total : Bool
deriving DecidableEq, Repr

/-- `CounterAvailability::NONE` from `ricoh.rs`. -/
def CounterAvailability.NONE : CounterAvailability :=
  ⟨false, false, false⟩

/-- `RicohProfile` from `ricoh.rs`. -/
structure RicohProfile where
  match_status : RicohMatch
  model : Option Str
  sys_object_id : Option Str
  sys_descr : Option Str
  counters : CounterAvailability
  strategy : CounterStrategy
  notes : List Str
deriving DecidableEq, Repr

/-- `is_ricoh_sys_object_id` from `ricoh.rs`: the vendor's reserved
numeric-path prefix. -/
def is_ricoh_sys_object_id (sys_object_id : Str) : Bool :=
  "1.3.6.1.4.1.367".data.isPrefixOf sys_object_id

/-- `contains_ricoh` from `ricoh.rs`: case-insensitive vendor keyword test. -/
def contains_ricoh (value : Str) : Bool :=
  containsSub ("ricoh".data) (toLowerAscii value)

/-- `extract_model_from_descr` from `ricoh.rs`: the trimmed text following
the (case-insensitive) vendor keyword, absent when nothing follows. -/
def extract_model_from_descr (sys_descr : Str) : Option Str :=
  match findSub ("ricoh".data) (toLowerAscii sys_descr) with
  | none => none
  | some index =>
    let after := trimChars (sys_descr.drop (index + 5))
    if after = [] then none else some after

/-- The ordered color-capable model prefixes of `infer_color_capable`. -/
def color_prefixes : List Str :=
  ["im c".data, "mp c".data, "sp c".data, "mpcw".data, "imc".data,
    "mpc".data, "spc".data]

/-- The ordered monochrome model prefixes of `infer_color_capable`. -/
def mono_prefixes : List Str :=
  ["im ".data, "mp ".data, "sp ".data]

/-- `infer_color_capable` from `ricoh.rs`: color-capable prefixes are checked
first, then monochrome-only ones; no match means unknown capability. -/
def infer_color_capable (model : Str) : Option Bool :=
  let m := toLowerAscii (trimChars model)
  if color_prefixes.any (fun q => q.isPrefixOf m) then some true
  else if mono_prefixes.any (fun q => q.isPrefixOf m) then some false
  else none

/-- `RicohProfile::identify` from `ricoh.rs`: trim and drop empty inputs,
match the vendor by identifier prefix or description keyword, extract the
model substring, and classify capability by the prefix tables. -/
def RicohProfile.identify (sys_object_id sys_descr : Option Str) : RicohProfile :=
  let sys_object_id := (sys_object_id.map trimChars).filter (fun v => decide (v ≠ []))
  let sys_descr := (sys_descr.map trimChars).filter (fun v => decide (v ≠ []))
  let ricoh_by_oid := sys_object_id.elim false is_ricoh_sys_object_id
  let ricoh_by_descr := sys_descr.elim false contains_ricoh
  let is_ricoh := ricoh_by_oid || ricoh_by_descr
  let notes0 : List Str :=
    (if ricoh_by_oid && !ricoh_by_descr
      then ["Ricoh identified via sysObjectID.".data] else []) ++
    (if ricoh_by_descr && !ricoh_by_oid
      then ["Ricoh identified via sysDescr.".data] else [])
  let model := if is_ricoh then sys_descr.bind extract_model_from_descr else none
  let branch : RicohMatch × CounterAvailability × CounterStrategy × List Str :=
    if ¬ is_ricoh then (.NotRicoh, .NONE, .Unknown, [])
    else
      match model with
      | some m =>
        match infer_color_capable m with
        | some true => (.Known, ⟨true, true, true⟩, .BwColorPreferred, [])
        | some false => (.Known, ⟨true, false, true⟩, .BwOnly, [])
        | none =>
          (.Unmapped, .NONE, .Unknown,
            ["Unmapped Ricoh model; counter availability unknown.".data])
      | none =>
        (.Unmapped, .NONE, .Unknown, ["Ricoh model string not found.".data])
  { match_status := branch.1
    model := model
    sys_object_id := sys_object_id
    sys_descr := sys_descr
    counters := branch.2.1
    strategy := branch.2.2.1
    notes := notes0 ++ branch.2.2.2 }

/-- A well-formed dotted numeric string: the dot-join of one or more
components, each the canonical decimal numeral of a `u32` value. -/
def WellFormedDotted (cs : Str) : Prop :=
  ∃ arcs : List Nat, arcs ≠ [] ∧ (∀ a ∈ arcs, a < 2 ^ 32) ∧ cs = oidToChars ⟨arcs⟩

/-- `CounterKind` from `counters.rs`: the three counter categories. -/
inductive CounterKind where
  | bw
  | color
  | total
deriving DecidableEq, Repr

/-- `CounterMode` from `counters.rs`: the mutually exclusive resolution modes. -/
inductive CounterMode where
  | BwColor
  | TotalOnly
  | Partial
  | Missing
deriving DecidableEq, Repr

/-- `CounterWarning` from `counters.rs`. -/
inductive CounterWarning where
  | missing (kind : CounterKind)
  | usedTotalFallback
  | derivedTotal
  | nonNumeric (kind : CounterKind) (oid : Str)
deriving DecidableEq, Repr

/-- `CounterOidSet` from `counters.rs`: candidate identifiers per category. -/
structure CounterOidSet where
  bw : List Oid
  color : List Oid
  total : List Oid
deriving DecidableEq, Repr

/-- `CounterOids` from `model.rs`: the audit identifiers of a snapshot. -/
structure CounterOids where
  bw : Option Str
  color : Option Str
  total : Option Str
deriving DecidableEq, Repr

/-- `CounterSnapshot` from `model.rs`. -/
structure CounterSnapshot where
  bw : Option Nat
  color : Option Nat
  total : Option Nat
  timestamp : Nat
  source_oids : CounterOids
deriving DecidableEq, Repr

/-- `CounterResolution` from `counters.rs`. -/
structure CounterResolution where
  snapshot : CounterSnapshot
  mode : CounterMode
  warnings : List CounterWarning
  raw_varbinds : List SnmpVarBind
deriving DecidableEq, Repr

/-- The private `CounterValue` struct of `counters.rs`. -/
structure CounterValue where
  value : Option Nat
  oid : Option Oid
deriving DecidableEq, Repr

/-- `find_counter_value` from `counters.rs`: scan the candidate list in order;
the first candidate present in the response with a numerically coercible value
wins; a present but non-numeric candidate emits a warning and the scan
continues. Returns the resolved value/oid together with the warnings pushed. -/
def find_counter_value (kind : CounterKind) (candidates : List Oid)
    (varbinds : List SnmpVarBind) : CounterValue × List CounterWarning :=
  match candidates with
  | [] => (⟨none, none⟩, [])
  | candidate :: rest =>
    match varbinds.find? (fun item => item.oid == candidate) with
    | none => find_counter_value kind rest varbinds
    | some varbind =>
      match varbind.value.as_u64 with
      | some value => (⟨some value, some candidate⟩, [])
      | none =>
        let r := find_counter_value kind rest varbinds
        (r.1, CounterWarning.nonNumeric kind (oidToChars candidate) :: r.2)

/-- `resolve_counters` from `counters.rs`: resolve each category, then pick the
resolution mode.  The derived total uses 64-bit addition, hence `% 2^64`. -/
def resolve_counters (timestamp : Nat) (oids : CounterOidSet)
    (varbinds : List SnmpVarBind) : CounterResolution :=
  let bw := (find_counter_value .bw oids.bw varbinds).1
  let color := (find_counter_value .color oids.color varbinds).1
  let total := (find_counter_value .total oids.total varbinds).1
  let scanWarnings :=
    (find_counter_value .bw oids.bw varbinds).2 ++
      (find_counter_value .color oids.color varbinds).2 ++
        (find_counter_value .total oids.total varbinds).2
  let source_oids : CounterOids :=
    ⟨bw.oid.map oidToChars, color.oid.map oidToChars, total.oid.map oidToChars⟩
  match bw.value, color.value with
  | some b, some c =>
    match total.value with
    | some t =>
      { snapshot := ⟨some b, some c, some t, timestamp, source_oids⟩
        mode := .BwColor
        warnings := scanWarnings
        raw_varbinds := varbinds }
    | none =>
      { snapshot := ⟨some b, some c, some ((b + c) % 2 ^ 64), timestamp,
          ⟨source_oids.bw, source_oids.color, none⟩⟩
        mode := .BwColor
        warnings := scanWarnings ++ [.derivedTotal]
        raw_varbinds := varbinds }
  | _, _ =>
    match total.value with
    | some t =>
      { snapshot := ⟨none, none, some t, timestamp, source_oids⟩
        mode := .TotalOnly
        warnings := scanWarnings ++
          (if bw.value.isNone then [CounterWarning.missing .bw] else []) ++
            (if color.value.isNone then [CounterWarning.missing .color] else []) ++
              [.usedTotalFallback]
        raw_varbinds := varbinds }
    | none =>
      { snapshot := ⟨bw.value, color.value, none, timestamp, source_oids⟩
        mode := if bw.value.isSome || color.value.isSome then .Partial else .Missing
        warnings := scanWarnings ++
          (if bw.value.isNone then [CounterWarning.missing .bw] else []) ++
            (if color.value.isNone then [CounterWarning.missing .color] else []) ++
              [CounterWarning.missing .total]
        raw_varbinds := varbinds }

/-- `oid_is_descendant` from `snmp.rs`: prefix-match test on arcs. -/
def oid_is_descendant (root candidate : Oid) : Bool :=
  decide (root.arcs.length ≤ candidate.arcs.length) &&
    candidate.arcs.take root.arcs.length == root.arcs

/-- Outcome of processing one get-next PDU inside `async_walk` (`snmp.rs`):
either the walk returns early with the varbinds accepted so far, or it
continues with the advanced cursor, accumulated varbinds and progress flag. -/
inductive PduStep where
  | halt (results : List SnmpVarBind)
  | cont (current : Oid) (results : List SnmpVarBind) (progressed : Bool)
deriving DecidableEq, Repr

/-- The `for (oid, value) in pdu.varbinds` body of `async_walk` (`snmp.rs`):
stop on an empty identifier, a non-descendant of the root, or an identifier
equal to the current cursor; otherwise accept the pair and advance the cursor. -/
def process_varbinds (root : Oid) (current : Oid) (acc : List SnmpVarBind)
    (progressed : Bool) : List (Oid × SnmpValue) → PduStep
  | [] => .cont current acc progressed
  | (oid, value) :: rest =>
    if oid.arcs = [] then .halt acc
    else if ¬ oid_is_descendant root oid then .halt acc
    else if oid = current then .halt acc
    else process_varbinds root oid (acc ++ [⟨oid, value⟩]) true rest

/-- The main loop of `async_walk` (`snmp.rs`).  The response sequence of the
device is the list `pdus` (one entry per issued get-next); exhausting it
models a transport failure (`none`).  `remaining` mirrors the `remaining`
budget; `max_results = 0` means unbounded. -/
def walkLoop (root : Oid) (max_results : Nat) : Nat → Oid → List SnmpVarBind →
    List (List (Oid × SnmpValue)) → Option (List SnmpVarBind)
  | remaining, current, acc, pdus =>
    if max_results > 0 ∧ remaining = 0 then some acc
    else
      match pdus with
      | [] => none
      | pdu :: rest =>
        match process_varbinds root current acc false pdu with
        | .halt results => some results
        | .cont current' acc' progressed =>
          if progressed then
            walkLoop root max_results
              (if max_results > 0 then remaining - 1 else remaining) current' acc' rest
          else some acc'

/-- `async_walk` from `snmp.rs`, as a function of the response sequence. -/
def async_walk (root : Oid) (max_results : Nat)
    (pdus : List (List (Oid × SnmpValue))) : Option (List SnmpVarBind) :=
  walkLoop root max_results max_results root [] pdus

/-- `StorageAction` from `error.rs`. -/
inductive StorageAction where
  | Load
  | Save
deriving DecidableEq, Repr

/-- The error taxonomy of `error.rs`.  External error payloads (`ron::Error`,
`io::Error`) are embedded as their message strings. -/
inductive Error where
  | SnmpAuth (address : String) (details : Option String)
  | SnmpTimeout (address : String) (timeout_ms : Nat)
  | SnmpFailure (address : String) (details : String)
  | UnsupportedModel (model : String) (sys_object_id : Option String)
  | MissingCounters (printer_id : String) (missing : List String)
  | CounterReset (printer_id : String) (previous current : Nat)
  | DiscoveryFailure (range : Option String) (details : String)
  | Ron (action : StorageAction) (path : Option String) (source : String)
  | StorageIo (action : StorageAction) (path : Option String) (source : String)
deriving DecidableEq, Repr

/-- The snmp2 crate's error type (external), modelled at the granularity the
client distinguishes: the community-mismatch variant versus everything else,
each with its display text. -/
inductive Snmp2Error where
  | communityMismatch
  | otherError (display : String)
deriving DecidableEq, Repr

/-- Display text of a `Snmp2Error` (the crate's `format!("{error}")`). -/
def snmp2ErrorDisplay : Snmp2Error → String
  | .communityMismatch => "community mismatch"
  | .otherError display => display

/-- `map_snmp2_error` from `snmp.rs`: the community-mismatch failure is
classified as the distinct `SnmpAuth` kind; every other crate error becomes a
generic `SnmpFailure` with its display text. -/
def map_snmp2_error (address : String) : Snmp2Error → Error
  | .communityMismatch =>
    .SnmpAuth address (some (snmp2ErrorDisplay .communityMismatch))
  | .otherError display => .SnmpFailure address display

/-- Outcome of one attempt of the `session.get_many` exchange inside
`get_many_with_retries` (`snmp.rs`): a PDU, a crate error, or a timeout. -/
inductive AttemptOutcome where
  | ok (varbinds : List SnmpVarBind)
  | err (error : Snmp2Error)
  | timedOut
deriving DecidableEq, Repr

/-- `get_many_with_retries` from `snmp.rs`, as a function of the per-attempt
outcome sequence: any failing attempt (error or timeout) is retried while
`attempts < retries`; once retries are exhausted the last error is surfaced
through `map_snmp2_error` (or as a timeout error). -/
def get_many_with_retries (address : String) (timeout_ms retries : Nat)
    (outcomes : Nat → AttemptOutcome) (attempts : Nat) :
    Except Error (List SnmpVarBind) :=
  match outcomes attempts with
  | .ok varbinds => .ok varbinds
  | .err error =>
    if h : attempts < retries then
      get_many_with_retries address timeout_ms retries outcomes (attempts + 1)
    else .error (map_snmp2_error address error)
  | .timedOut =>
    if h : attempts < retries then
      get_many_with_retries address timeout_ms retries outcomes (attempts + 1)
    else .error (.SnmpTimeout address timeout_ms)
termination_by retries - attempts
decreasing_by all_goals omega

/-- `MAX_OIDS_PER_GET` from `snmp.rs`: the fixed GET batch size. -/
def MAX_OIDS_PER_GET : Nat := 24

/-- Rust's `slice::chunks(MAX_OIDS_PER_GET)` as used by `async_get`
(`snmp.rs`): successive sub-lists of at most the batch size. -/
def chunksOfMax (l : List Oid) : List (List Oid) :=
  if h : l = [] then []
  else l.take MAX_OIDS_PER_GET :: chunksOfMax (l.drop MAX_OIDS_PER_GET)
termination_by l.length
decreasing_by
  simp only [List.length_drop]
  have := List.length_pos.mpr h
  simp [MAX_OIDS_PER_GET]
  omega

/-- Modelled from the spec: the wire protocol's GET exchange (the external
snmp2 crate plus device) answers a batched query by pairing each requested
identifier with the device's value for it, in request order. -/
def get_many (env : Oid → SnmpValue) (oids : List Oid) : List SnmpVarBind :=
  oids.map (fun oid => ⟨oid, env oid⟩)

/-- `async_get` from `snmp.rs`: split the identifier list into chunks of at
most `MAX_OIDS_PER_GET`, issue one batched query per chunk, and concatenate
the per-chunk results in order. -/
def async_get (env : Oid → SnmpValue) (oids : List Oid) : List SnmpVarBind :=
  ((chunksOfMax oids).map (get_many env)).flatten

/-- C2: when the device answers a get-next with an identifier equal to the
previous cursor, the walk stops at that first repeat and returns the varbinds
accepted so far — independent of the remainder of the response sequence, so it
never loops. -/
theorem C2_walk_stops_on_repeated_oid
    (root : Oid) (max_results remaining : Nat) (current : Oid)
    (acc : List SnmpVarBind) (v : SnmpValue) (more : List (Oid × SnmpValue))
    (rest : List (List (Oid × SnmpValue)))
    (hbudget : max_results = 0 ∨ remaining ≠ 0) :
    walkLoop root max_results remaining current acc (((current, v) :: more) :: rest) =
      some acc := by
  have hcond : ¬ (max_results > 0 ∧ remaining = 0) := by
    rcases hbudget with h | h <;> simp [h]
  rw [walkLoop]
  simp only [hcond, if_false, process_varbinds]
  by_cases h1 : current.arcs = []
  · simp [h1]
  · by_cases h2 : oid_is_descendant root current
    · simp [h1, h2]
    · simp [h1, h2]

/-- Witness for C2: a cursor `1.3.1` repeated by the device; the walk returns
the single previously accepted varbind and ignores the queued follow-up PDU. -/
theorem C2_walk_stops_on_repeated_oid_witness :
    ((5 : Nat) = 0 ∨ (5 : Nat) ≠ 0) ∧
    walkLoop ⟨[1, 3]⟩ 5 5 ⟨[1, 3, 1]⟩ [⟨⟨[1, 3, 1]⟩, .counter32 7⟩]
      [[(⟨[1, 3, 1]⟩, .counter32 7)], [(⟨[1, 3, 2]⟩, .counter32 8)]] =
      some [⟨⟨[1, 3, 1]⟩, .counter32 7⟩] :=
  ⟨Or.inr (by decide),
    C2_walk_stops_on_repeated_oid ⟨[1, 3]⟩ 5 5 ⟨[1, 3, 1]⟩
      [⟨⟨[1, 3, 1]⟩, .counter32 7⟩] (.counter32 7) []
      [[(⟨[1, 3, 2]⟩, .counter32 8)]] (Or.inr (by decide))⟩

/-- C1: when both the black/white and the color category resolve, the mode is
`BwColor`; the snapshot's total equals the total category's own resolved value
when that category resolved, and otherwise equals black/white + color (64-bit
addition), with a derived-total warning emitted and the audit identifier for
total cleared to `none`. -/
theorem C1_resolve_counters_bw_color
    (ts : Nat) (oids : CounterOidSet) (vbs : List SnmpVarBind) (b c : Nat)
    (hb : (find_counter_value .bw oids.bw vbs).1.value = some b)
    (hc : (find_counter_value .color oids.color vbs).1.value = some c) :
    (resolve_counters ts oids vbs).mode = .BwColor ∧
    (∀ t, (find_counter_value .total oids.total vbs).1.value = some t →
      (resolve_counters ts oids vbs).snapshot.total = some t) ∧
    ((find_counter_value .total oids.total vbs).1.value = none →
      (resolve_counters ts oids vbs).snapshot.total = some ((b + c) % 2 ^ 64) ∧
      CounterWarning.derivedTotal ∈ (resolve_counters ts oids vbs).warnings ∧
      (resolve_counters ts oids vbs).snapshot.source_oids.total = none) := by
  rcases htotal : (find_counter_value .total oids.total vbs).1.value with _ | t
  · simp [resolve_counters, hb, hc, htotal]
  · simp [resolve_counters, hb, hc, htotal]

/-- Witness for C1: one candidate per category, black/white = 100 and
color = 50 present, no total in the response. -/
theorem C1_resolve_counters_bw_color_witness :
    (resolve_counters 1725000000 ⟨[⟨[1, 2, 3, 1]⟩], [⟨[1, 2, 3, 2]⟩], [⟨[1, 2, 3, 3]⟩]⟩
        [⟨⟨[1, 2, 3, 1]⟩, .counter32 100⟩, ⟨⟨[1, 2, 3, 2]⟩, .counter32 50⟩]).mode = .BwColor ∧
    (resolve_counters 1725000000 ⟨[⟨[1, 2, 3, 1]⟩], [⟨[1, 2, 3, 2]⟩], [⟨[1, 2, 3, 3]⟩]⟩
        [⟨⟨[1, 2, 3, 1]⟩, .counter32 100⟩,
          ⟨⟨[1, 2, 3, 2]⟩, .counter32 50⟩]).snapshot.total = some 150 ∧
    CounterWarning.derivedTotal ∈
      (resolve_counters 1725000000 ⟨[⟨[1, 2, 3, 1]⟩], [⟨[1, 2, 3, 2]⟩], [⟨[1, 2, 3, 3]⟩]⟩
        [⟨⟨[1, 2, 3, 1]⟩, .counter32 100⟩, ⟨⟨[1, 2, 3, 2]⟩, .counter32 50⟩]).warnings ∧
    (resolve_counters 1725000000 ⟨[⟨[1, 2, 3, 1]⟩], [⟨[1, 2, 3, 2]⟩], [⟨[1, 2, 3, 3]⟩]⟩
        [⟨⟨[1, 2, 3, 1]⟩, .counter32 100⟩,
          ⟨⟨[1, 2, 3, 2]⟩, .counter32 50⟩]).snapshot.source_oids.total = none := by
  have h := C1_resolve_counters_bw_color 1725000000
    ⟨[⟨[1, 2, 3, 1]⟩], [⟨[1, 2, 3, 2]⟩], [⟨[1, 2, 3, 3]⟩]⟩
    [⟨⟨[1, 2, 3, 1]⟩, .counter32 100⟩, ⟨⟨[1, 2, 3, 2]⟩, .counter32 50⟩]
    100 50 (by decide) (by decide)
  have h4 := h.2.2 (by decide)
  refine ⟨h.1, ?_, h4.2.1, h4.2.2⟩
  have : (100 + 50) % 2 ^ 64 = 150 := by norm_num
  rw [← this]
  exact h4.1

/-- Every warning pushed during the candidate scan of `find_counter_value`
is a non-numeric warning. -/
theorem find_counter_value_warnings_shape (kind : CounterKind) (cands : List Oid)
    (vbs : List SnmpVarBind) :
    ∀ w ∈ (find_counter_value kind cands vbs).2, ∃ k o, w = CounterWarning.nonNumeric k o := by
  induction cands with
  | nil => intro w hw; simp [find_counter_value] at hw
  | cons c rest ih =>
    intro w hw
    simp only [find_counter_value] at hw
    rcases hfind : vbs.find? (fun item => item.oid == c) with _ | vb
    · rw [hfind] at hw; exact ih w hw
    · rw [hfind] at hw
      rcases hval : vb.value.as_u64 with _ | v
      · simp only [hval, List.mem_cons] at hw
        rcases hw with h | h
        · exact ⟨kind, oidToChars c, h⟩
        · exact ih w h
      · simp only [hval] at hw
        simp at hw

/-- A missing-category warning never comes from the candidate scan itself. -/
theorem missing_notin_find (kind k : CounterKind) (cands : List Oid)
    (vbs : List SnmpVarBind) :
    CounterWarning.missing kind ∉ (find_counter_value k cands vbs).2 := by
  intro hmem
  rcases find_counter_value_warnings_shape k cands vbs _ hmem with ⟨a, o, h⟩
  exact CounterWarning.noConfusion h

/-- The snapshot populates black/white or color only in `BwColor`/`Partial` mode. -/
theorem C10aux_mode (ts : Nat) (oids : CounterOidSet) (vbs : List SnmpVarBind) :
    ((resolve_counters ts oids vbs).snapshot.bw.isSome ∨
        (resolve_counters ts oids vbs).snapshot.color.isSome) →
      (resolve_counters ts oids vbs).mode = .BwColor ∨
        (resolve_counters ts oids vbs).mode = .Partial := by
  rcases hbw : (find_counter_value .bw oids.bw vbs).1.value with _ | b <;>
    rcases hcolor : (find_counter_value .color oids.color vbs).1.value with _ | c <;>
      rcases htotal : (find_counter_value .total oids.total vbs).1.value with _ | t <;>
        simp [resolve_counters, hbw, hcolor, htotal]

/-- In `TotalOnly` mode, resolved split categories are omitted from the
snapshot, keep their audit identifier, and trigger no missing warning. -/
theorem C10aux_total_only (ts : Nat) (oids : CounterOidSet) (vbs : List SnmpVarBind) :
    (resolve_counters ts oids vbs).mode = .TotalOnly →
      (resolve_counters ts oids vbs).snapshot.bw = none ∧
      (resolve_counters ts oids vbs).snapshot.color = none ∧
      (∀ v o, (find_counter_value .bw oids.bw vbs).1.value = some v →
        (find_counter_value .bw oids.bw vbs).1.oid = some o →
        (resolve_counters ts oids vbs).snapshot.source_oids.bw = some (oidToChars o) ∧
        CounterWarning.missing .bw ∉ (resolve_counters ts oids vbs).warnings) ∧
      (∀ v o, (find_counter_value .color oids.color vbs).1.value = some v →
        (find_counter_value .color oids.color vbs).1.oid = some o →
        (resolve_counters ts oids vbs).snapshot.source_oids.color = some (oidToChars o) ∧
        CounterWarning.missing .color ∉ (resolve_counters ts oids vbs).warnings) := by
  intro hmode
  rcases hbw : (find_counter_value .bw oids.bw vbs).1.value with _ | b <;>
    rcases hcolor : (find_counter_value .color oids.color vbs).1.value with _ | c <;>
      rcases htotal : (find_counter_value .total oids.total vbs).1.value with _ | t
  · simp [resolve_counters, hbw, hcolor, htotal] at hmode
  · simp [resolve_counters, hbw, hcolor, htotal]
  · simp [resolve_counters, hbw, hcolor, htotal] at hmode
  · refine ⟨?_, ?_, ?_, ?_⟩
    · simp [resolve_counters, hbw, hcolor, htotal]
    · simp [resolve_counters, hbw, hcolor, htotal]
    · intro v o hv ho; simp at hv
    · intro v o hv ho
      constructor
      · simp [resolve_counters, hbw, hcolor, htotal, ho]
      · simp [resolve_counters, hbw, hcolor, htotal, List.mem_append, missing_notin_find]
  · simp [resolve_counters, hbw, hcolor, htotal] at hmode
  · refine ⟨?_, ?_, ?_, ?_⟩
    · simp [resolve_counters, hbw, hcolor, htotal]
    · simp [resolve_counters, hbw, hcolor, htotal]
    · intro v o hv ho
      constructor
      · simp [resolve_counters, hbw, hcolor, htotal, ho]
      · simp [resolve_counters, hbw, hcolor, htotal, List.mem_append, missing_notin_find]
    · intro v o hv ho; simp at hv
  · simp [resolve_counters, hbw, hcolor, htotal] at hmode
  · simp [resolve_counters, hbw, hcolor, htotal] at hmode

/-- C10: the snapshot's black/white and color fields are populated only in the
`BwColor` and `Partial` modes; in `TotalOnly` mode a category that did resolve
is omitted from the snapshot while its audit identifier is still recorded and
no missing warning is emitted for it. -/
theorem C10_total_only_omits_resolved_split
    (ts : Nat) (oids : CounterOidSet) (vbs : List SnmpVarBind) :
    (((resolve_counters ts oids vbs).snapshot.bw.isSome ∨
        (resolve_counters ts oids vbs).snapshot.color.isSome) →
      (resolve_counters ts oids vbs).mode = .BwColor ∨
        (resolve_counters ts oids vbs).mode = .Partial) ∧
    ((resolve_counters ts oids vbs).mode = .TotalOnly →
      (resolve_counters ts oids vbs).snapshot.bw = none ∧
      (resolve_counters ts oids vbs).snapshot.color = none ∧
      (∀ v o, (find_counter_value .bw oids.bw vbs).1.value = some v →
        (find_counter_value .bw oids.bw vbs).1.oid = some o →
        (resolve_counters ts oids vbs).snapshot.source_oids.bw = some (oidToChars o) ∧
        CounterWarning.missing .bw ∉ (resolve_counters ts oids vbs).warnings) ∧
      (∀ v o, (find_counter_value .color oids.color vbs).1.value = some v →
        (find_counter_value .color oids.color vbs).1.oid = some o →
        (resolve_counters ts oids vbs).snapshot.source_oids.color = some (oidToChars o) ∧
        CounterWarning.missing .color ∉ (resolve_counters ts oids vbs).warnings)) := by
  exact ⟨C10aux_mode ts oids vbs, C10aux_total_only ts oids vbs⟩

/-- The rendered digit characters have their expected code points. -/
theorem digitChar_toNat (d : Nat) (hd : d < 10) : (Char.ofNat (48 + d)).toNat = 48 + d := by
  interval_cases d <;> decide

/-- Rendered digit characters satisfy `Char.isDigit`. -/
theorem digitChar_isDigit (d : Nat) (hd : d < 10) : (Char.ofNat (48 + d)).isDigit = true := by
  interval_cases d <;> decide

/-- Rendered digit characters are not the dot separator. -/
theorem digitChar_ne_dot (d : Nat) (hd : d < 10) : Char.ofNat (48 + d) ≠ '.' := by
  interval_cases d <;> decide

/-- Rendered digit characters are not the plus sign. -/
theorem digitChar_ne_plus (d : Nat) (hd : d < 10) : Char.ofNat (48 + d) ≠ '+' := by
  interval_cases d <;> decide

/-- Rendering zero with any fuel gives the empty digit string. -/
theorem natDigitsAux_zero (fuel : Nat) : natDigitsAux fuel 0 = [] := by
  cases fuel <;> simp [natDigitsAux]

/-- Every character produced by `natDigitsAux` is a digit, not a dot, not a
plus sign. -/
theorem natDigitsAux_chars : ∀ fuel n, ∀ c ∈ natDigitsAux fuel n,
    c.isDigit = true ∧ c ≠ '.' ∧ c ≠ '+' := by
  intro fuel
  induction fuel with
  | zero => intro n c hc; simp [natDigitsAux] at hc
  | succ fuel ih =>
    intro n c hc
    rw [natDigitsAux] at hc
    by_cases hn : n = 0
    · simp [hn] at hc
    · simp only [hn, if_false, List.mem_append, List.mem_singleton] at hc
      rcases hc with hc | rfl
      · exact ih (n / 10) c hc
      · have hm : n % 10 < 10 := Nat.mod_lt _ (by norm_num)
        exact ⟨digitChar_isDigit _ hm, digitChar_ne_dot _ hm, digitChar_ne_plus _ hm⟩

/-- Folding the decimal accumulator over the rendered digits of a positive
`n ≤ fuel` recovers `n` on top of the shifted accumulator. -/
theorem natDigitsAux_foldl : ∀ fuel n, 0 < n → n ≤ fuel → ∀ a : Nat,
    (natDigitsAux fuel n).foldl (fun acc c => acc * 10 + (c.toNat - 48)) a =
      a * 10 ^ (natDigitsAux fuel n).length + n := by
  intro fuel
  induction fuel with
  | zero => intro n h0 h1; omega
  | succ fuel ih =>
    intro n h0 h1 a
    rw [natDigitsAux]
    have hne : ¬ n = 0 := by omega
    simp only [hne, if_false, List.foldl_append, List.length_append,
      List.foldl_cons, List.foldl_nil, List.length_cons, List.length_nil]
    have hm10 : n % 10 < 10 := Nat.mod_lt _ (by norm_num)
    by_cases hq : n / 10 = 0
    · rw [hq, natDigitsAux_zero]
      have hn10 : n < 10 := by omega
      simp only [List.foldl_nil, List.length_nil, digitChar_toNat _ hm10]
      have : n % 10 = n := Nat.mod_eq_of_lt hn10
      simp [this]
    · have hrec := ih (n / 10) (Nat.pos_of_ne_zero hq) (by omega) a
      rw [hrec, digitChar_toNat _ hm10]
      have hpow : 10 ^ ((natDigitsAux fuel (n / 10)).length + (0 + 1)) =
          10 ^ (natDigitsAux fuel (n / 10)).length * 10 := by
        rw [Nat.add_comm _ (0 + 1)]
        ring
      rw [hpow]
      have hdm : n / 10 * 10 + n % 10 = n := by omega
      ring_nf
      omega

/-- The canonical decimal rendering is non-empty, all digits (never a dot or
a plus sign), and folds back to the rendered number. -/
theorem natToChars_spec (n : Nat) :
    natToChars n ≠ [] ∧ (∀ c ∈ natToChars n, c.isDigit = true ∧ c ≠ '.' ∧ c ≠ '+') ∧
    (natToChars n).foldl (fun acc c => acc * 10 + (c.toNat - 48)) 0 = n := by
  by_cases hn : n = 0
  · subst hn; refine ⟨by decide, ?_, by decide⟩
    intro c hc
    simp only [natToChars, if_true, List.mem_singleton, reduceIte] at hc
    subst hc
    exact ⟨by decide, by decide, by decide⟩
  · have h0 : 0 < n := Nat.pos_of_ne_zero hn
    have hfold := natDigitsAux_foldl (n + 1) n h0 (by omega) 0
    constructor
    · intro hnil
      rw [natToChars, if_neg hn] at hnil
      rw [hnil] at hfold
      simp at hfold
      omega
    constructor
    · intro c hc
      rw [natToChars, if_neg hn] at hc
      exact natDigitsAux_chars (n + 1) n c hc
    · rw [natToChars, if_neg hn, hfold]
      simp

/-- Parsing the canonical rendering of `n < 2^32` as a `u32` succeeds. -/
theorem parseU32_natToChars (n : Nat) (h : n < 2 ^ 32) :
    parseU32 (natToChars n) = some n := by
  obtain ⟨hne, hdig, hfold⟩ := natToChars_spec n
  rcases hcs : natToChars n with _ | ⟨c, rest⟩
  · exact absurd hcs hne
  · have hcp : c ≠ '+' := (hdig c (by rw [hcs]; simp)).2.2
    have hall : (c :: rest).all Char.isDigit = true := by
      rw [List.all_eq_true]
      intro x hx
      exact (hdig x (by rw [hcs]; exact hx)).1
    rw [hcs] at hfold
    simp only [parseU32, List.head?_cons, Option.some.injEq]
    rw [if_neg hcp, if_neg (List.cons_ne_nil c rest), if_pos hall, hfold, if_pos h]

/-- Splitting after a dot-free component peels it off. -/
theorem splitDot_append_dot (p : Str) (hp : ∀ c ∈ p, c ≠ '.') (cs : Str) :
    splitDot (p ++ '.' :: cs) = p :: splitDot cs := by
  induction p with
  | nil => simp [splitDot]
  | cons c rest ih =>
    have hc : c ≠ '.' := hp c (by simp)
    have ih2 := ih (fun x hx => hp x (by simp [hx]))
    simp [splitDot, hc, ih2]

/-- A dot-free component splits to itself. -/
theorem splitDot_no_dot (p : Str) (hp : ∀ c ∈ p, c ≠ '.') : splitDot p = [p] := by
  induction p with
  | nil => rfl
  | cons c rest ih =>
    have hc : c ≠ '.' := hp c (by simp)
    have ih2 := ih (fun x hx => hp x (by simp [hx]))
    simp [splitDot, hc, ih2]

/-- Splitting a dot-join of dot-free components recovers the components. -/
theorem splitDot_dotJoin (parts : List Str) (hne : parts ≠ [])
    (h : ∀ p ∈ parts, ∀ c ∈ p, c ≠ '.') :
    splitDot (dotJoin parts) = parts := by
  induction parts with
  | nil => cases hne rfl
  | cons p rest ih =>
    cases rest with
    | nil => exact splitDot_no_dot p (h p (by simp))
    | cons q rest2 =>
      have hstep : dotJoin (p :: q :: rest2) = p ++ '.' :: dotJoin (q :: rest2) := rfl
      rw [hstep, splitDot_append_dot p (h p (by simp))]
      rw [ih (by simp) (fun x hx => h x (by simp [hx]))]

/-- The component loop of OID parsing maps canonical renderings back to arcs. -/
theorem oidGo_map (arcs : List Nat) (hlt : ∀ a ∈ arcs, a < 2 ^ 32) :
    oidFromChars.go (arcs.map natToChars) = some arcs := by
  induction arcs with
  | nil => rfl
  | cons a rest ih =>
    rw [List.map_cons, oidFromChars.go]
    have hne : natToChars a ≠ [] := (natToChars_spec a).1
    rw [if_neg hne, parseU32_natToChars a (hlt a (by simp))]
    rw [ih (fun x hx => hlt x (by simp [hx]))]
    rfl

/-- A parsed IPv4 octet is at most 255. -/
theorem parseOctet_le (cs : Str) (v : Nat) (h : parseOctet cs = some v) : v ≤ 255 := by
  unfold parseOctet at h
  repeat split at h
  all_goals simp_all
  omega

/-- A parsed IPv4 address value fits in 32 bits. -/
theorem parseIpv4_lt (cs : Str) (ip : Nat) (h : parseIpv4 cs = some ip) : ip < 2 ^ 32 := by
  unfold parseIpv4 at h
  split at h
  · split at h
    · rename_i heqa heqb heqc heqd
      have ha := parseOctet_le _ _ heqa
      have hb := parseOctet_le _ _ heqb
      have hc := parseOctet_le _ _ heqc
      have hd := parseOctet_le _ _ heqd
      simp only [Option.some.injEq] at h
      omega
    · simp at h
  · simp at h

/-- The mask of any prefix length fits in 32 bits. -/
theorem prefix_to_mask_lt (p : Nat) : prefix_to_mask p < 2 ^ 32 := by
  unfold prefix_to_mask
  split
  · norm_num
  · exact Nat.mod_lt _ (by norm_num)

/-- For prefix lengths up to 30 the mask is not all-ones (its two low bits
are clear, so in particular it is even). -/
theorem prefix_to_mask_ne_top (p : Nat) (hp : p ≤ 30) :
    prefix_to_mask p ≠ 2 ^ 32 - 1 := by
  unfold prefix_to_mask
  split
  · norm_num
  · intro hcontra
    have h2 : (2 : Nat) ∣ ((2 ^ 32 - 1) <<< (32 - p)) := by
      rw [Nat.shiftLeft_eq]
      exact Dvd.dvd.mul_left (dvd_pow_self 2 (by omega)) _
    have h3 : (2 : Nat) ∣ ((2 ^ 32 - 1) <<< (32 - p)) % 2 ^ 32 :=
      (Nat.dvd_mod_iff (by norm_num)).mpr h2
    rw [hcontra] at h3
    norm_num at h3

/-- A bitwise or with a non-zero right operand is non-zero. -/
theorem lor_ne_zero_right (a b : Nat) (h : b ≠ 0) : a ||| b ≠ 0 := by
  intro h0
  obtain ⟨i, hi, _⟩ := Nat.exists_most_significant_bit h
  have h2 : (a ||| b).testBit i = false := by rw [h0]; simp
  rw [Nat.testBit_or, hi] at h2
  simp at h2

/-- Every address yielded by the iterator lies between the cursor and the
stop bound (for any in-range starting cursor). -/
theorem iterRun_mem_bounds : ∀ fuel (it : CidrIter), it.current ≤ 2 ^ 32 - 1 →
    ∀ x ∈ (iterRun fuel it).1, it.current ≤ x ∧ x ≤ it.stop := by
  intro fuel
  induction fuel with
  | zero => intro it _ x hx; simp [iterRun] at hx
  | succ fuel ih =>
    intro it hcur x hx
    rw [iterRun] at hx
    rcases hnext : cidrNext it with _ | ⟨ip, it'⟩
    · rw [hnext] at hx; simp at hx
    · rw [hnext] at hx
      unfold cidrNext at hnext
      split at hnext
      · cases hnext
      · rename_i hle
        simp only [Option.some.injEq, Prod.mk.injEq] at hnext
        obtain ⟨rfl, rfl⟩ := hnext
        simp only [List.mem_cons] at hx
        rcases hx with rfl | hx
        · exact ⟨le_refl _, by omega⟩
        · have := ih _ (by simp) x hx
          simp at this
          omega

/-- `iterRun_mem_bounds` with the iterator fields spelled out. -/
theorem iterRun_mem_bounds' (fuel current stop x : Nat)
    (hcur : current ≤ 2 ^ 32 - 1) (hx : x ∈ (iterRun fuel ⟨current, stop⟩).1) :
    current ≤ x ∧ x ≤ stop :=
  iterRun_mem_bounds fuel ⟨current, stop⟩ hcur x hx

/-- Inverting `cidrParse`: a successful parse is `cidrMake` on an in-range
address and a prefix length of at most 32. -/
theorem cidrParse_inv (s : Str) (r : CidrRange) (h : cidrParse s = some r) :
    ∃ ip p, ip < 2 ^ 32 ∧ p ≤ 32 ∧ r = cidrMake ip p := by
  simp only [cidrParse] at h
  rcases h1 : splitOnceSlash (trimChars s) with _ | ⟨addr, prefixPart⟩
  · rw [h1] at h; simp at h
  · simp only [h1] at h
    rcases h2 : parseIpv4 addr with _ | ip
    · simp only [h2] at h; simp at h
    · simp only [h2] at h
      rcases h3 : parseU8 prefixPart with _ | p
      · simp only [h3] at h; simp at h
      · simp only [h3] at h
        by_cases hp : 32 < p
        · rw [if_pos hp] at h; simp at h
        · rw [if_neg hp] at h
          simp only [Option.some.injEq] at h
          exact ⟨ip, p, parseIpv4_lt addr ip h2, by omega, h.symm⟩

/-- `cidrMake` stores the prefix length unchanged. -/
theorem cidrMake_prefixLen (ip p : Nat) : (cidrMake ip p).prefixLen = p := by
  unfold cidrMake
  split <;> rfl

/-- Field values of `cidrMake` for prefix lengths up to 30. -/
theorem cidrMake_le30 (ip p : Nat) (hp : p ≤ 30) :
    cidrMake ip p =
      ⟨(ip &&& prefix_to_mask p) + 1,
        ((ip &&& prefix_to_mask p) ||| ((2 ^ 32 - 1) - prefix_to_mask p)) - 1,
        ip &&& prefix_to_mask p, p⟩ := by
  unfold cidrMake
  rw [if_pos hp]

/-- Field values of `cidrMake` for prefix lengths 31 and 32. -/
theorem cidrMake_gt30 (ip p : Nat) (hp : ¬ p ≤ 30) :
    cidrMake ip p =
      ⟨ip &&& prefix_to_mask p,
        (ip &&& prefix_to_mask p) ||| ((2 ^ 32 - 1) - prefix_to_mask p),
        ip &&& prefix_to_mask p, p⟩ := by
  unfold cidrMake
  rw [if_neg hp]

/-- C4: for every successfully parsed range, prefixes up to 30 exclude the
network and broadcast addresses from the enumerated hosts, while prefixes 31
and 32 enumerate the full computed range; concretely, `10.0.0.0/30` yields
exactly `10.0.0.1, 10.0.0.2` (u32 values 167772161, 167772162) and then
ends, and `10.0.0.5/32` yields exactly `10.0.0.5` (167772165). -/
theorem C4_cidr_usable_host_range :
    (∀ s r, cidrParse s = some r →
      (r.prefixLen ≤ 30 →
        ∀ fuel x, x ∈ (iterRun fuel ⟨r.start, r.stop⟩).1 →
          x ≠ r.network ∧ x ≠ broadcastOf r) ∧
      (30 < r.prefixLen → r.start = r.network ∧ r.stop = broadcastOf r)) ∧
    (cidrParse ("10.0.0.0/30".data) = some ⟨167772161, 167772162, 167772160, 30⟩ ∧
      iterRun 5 ⟨167772161, 167772162⟩ = ([167772161, 167772162], true)) ∧
    (cidrParse ("10.0.0.5/32".data) = some ⟨167772165, 167772165, 167772165, 32⟩ ∧
      iterRun 5 ⟨167772165, 167772165⟩ = ([167772165], true)) := by
  refine ⟨?_, ⟨by decide, by decide⟩, ⟨by decide, by decide⟩⟩
  intro s r hparse
  obtain ⟨ip, p, hip, hp32, rfl⟩ := cidrParse_inv s r hparse
  have hmask_lt := prefix_to_mask_lt p
  have hnet_le : ip &&& prefix_to_mask p ≤ prefix_to_mask p := Nat.and_le_right
  constructor
  · intro hp30 fuel x hx
    have hp : p ≤ 30 := by rwa [cidrMake_prefixLen] at hp30
    rw [cidrMake_le30 ip p hp] at hx ⊢
    have hmask_ne := prefix_to_mask_ne_top p hp
    have hbro : broadcastOf
        (⟨(ip &&& prefix_to_mask p) + 1,
          ((ip &&& prefix_to_mask p) ||| ((2 ^ 32 - 1) - prefix_to_mask p)) - 1,
          ip &&& prefix_to_mask p, p⟩ : CidrRange) =
        (ip &&& prefix_to_mask p) ||| ((2 ^ 32 - 1) - prefix_to_mask p) := rfl
    rw [hbro]
    have hcur_le : (ip &&& prefix_to_mask p) + 1 ≤ 2 ^ 32 - 1 := by omega
    have hb := iterRun_mem_bounds' fuel ((ip &&& prefix_to_mask p) + 1)
      (((ip &&& prefix_to_mask p) ||| ((2 ^ 32 - 1) - prefix_to_mask p)) - 1)
      x hcur_le hx
    have hbne : (ip &&& prefix_to_mask p) ||| ((2 ^ 32 - 1) - prefix_to_mask p) ≠ 0 :=
      lor_ne_zero_right _ _ (by omega)
    dsimp only
    omega
  · intro hp30
    have hp : ¬ p ≤ 30 := by
      rw [cidrMake_prefixLen] at hp30
      omega
    rw [cidrMake_gt30 ip p hp]
    exact ⟨rfl, rfl⟩

/-- C8: `is_missing` is true exactly for the null variant and the
vendor-specific no-such-object / no-such-instance sentinel values, and false
for all other variants. -/
theorem C8_is_missing_null_or_sentinel (v : SnmpValue) :
    v.is_missing = true ↔
      (v = .null ∨ v = .other ("NoSuchObject") ∨ v = .other ("NoSuchInstance")) := by
  cases v <;> simp [SnmpValue.is_missing]

/-- Witness for C8: the null value is missing, a counter value is not. -/
theorem C8_is_missing_null_or_sentinel_witness :
    (SnmpValue.null).is_missing = true ∧ (SnmpValue.counter32 7).is_missing = false := by
  constructor
  · exact (C8_is_missing_null_or_sentinel .null).mpr (Or.inl rfl)
  · have h := C8_is_missing_null_or_sentinel (.counter32 7)
    simp at h
    simp [h]

/-- C7: the device profiler maps a vendor-identifier prefix match with
unknown model text to vendor-but-unmapped-model with no counter availability;
"Ricoh IM C3000" to known/color-capable with prefer-split strategy and model
"IM C3000"; "Ricoh IM 4000" to monochrome with the black/white-only strategy;
and inputs with no vendor keyword and no matching identifier prefix to
not-this-vendor with no categories available. -/
theorem C7_ricoh_device_profiler (o d : Option Str)
    (ho : ∀ s, o = some s → is_ricoh_sys_object_id (trimChars s) = false)
    (hd : ∀ s, d = some s → contains_ricoh (trimChars s) = false) :
    ((RicohProfile.identify (some ("1.3.6.1.4.1.367.3.2.1".data))
        (some ("Generic Printer".data))).match_status = .Unmapped ∧
      (RicohProfile.identify (some ("1.3.6.1.4.1.367.3.2.1".data))
        (some ("Generic Printer".data))).counters = .NONE) ∧
    ((RicohProfile.identify none (some ("Ricoh IM C3000".data))).match_status = .Known ∧
      (RicohProfile.identify none (some ("Ricoh IM C3000".data))).counters.color = true ∧
      (RicohProfile.identify none
        (some ("Ricoh IM C3000".data))).strategy = .BwColorPreferred ∧
      (RicohProfile.identify none
        (some ("Ricoh IM C3000".data))).model = some ("IM C3000".data)) ∧
    ((RicohProfile.identify none (some ("Ricoh IM 4000".data))).match_status = .Known ∧
      (RicohProfile.identify none (some ("Ricoh IM 4000".data))).counters.color = false ∧
      (RicohProfile.identify none (some ("Ricoh IM 4000".data))).strategy = .BwOnly) ∧
    ((RicohProfile.identify o d).match_status = .NotRicoh ∧
      (RicohProfile.identify o d).counters = .NONE) := by
  refine ⟨⟨by decide, by decide⟩, ⟨by decide, by decide, by decide, by decide⟩,
    ⟨by decide, by decide, by decide⟩, ?_⟩
  have hoid : ((o.map trimChars).filter (fun v => decide (v ≠ []))).elim false
      is_ricoh_sys_object_id = false := by
    rcases o with _ | s
    · rfl
    · by_cases hv : trimChars s = []
      · simp [Option.filter, hv]
      · simp [Option.filter, hv, ho s rfl]
  have hdescr : ((d.map trimChars).filter (fun v => decide (v ≠ []))).elim false
      contains_ricoh = false := by
    rcases d with _ | s
    · rfl
    · by_cases hv : trimChars s = []
      · simp [Option.filter, hv]
      · simp [Option.filter, hv, hd s rfl]
  simp only [ne_eq, decide_not] at hoid hdescr
  constructor <;> simp [RicohProfile.identify, hoid, hdescr]

/-- Witness for C7: "HP LaserJet 5000" with no identifier has no vendor
signal, so the profiler reports not-this-vendor with no counters. -/
theorem C7_ricoh_device_profiler_witness :
    (RicohProfile.identify none
      (some ("HP LaserJet 5000".data))).match_status = .NotRicoh ∧
    (RicohProfile.identify none (some ("HP LaserJet 5000".data))).counters = .NONE :=
  (C7_ricoh_device_profiler none (some ("HP LaserJet 5000".data))
    (fun s h => Option.noConfusion h)
    (fun s h => by injection h with h'; subst h'; decide)).2.2.2

/-- Witness for C4: for the parsed `10.0.0.0/30`, the yielded host 10.0.0.1
differs from both the network and the broadcast address. -/
theorem C4_cidr_usable_host_range_witness :
    cidrParse ("10.0.0.0/30".data) = some ⟨167772161, 167772162, 167772160, 30⟩ ∧
    (30 : Nat) ≤ 30 ∧
    167772161 ∈ (iterRun 5 ⟨167772161, 167772162⟩).1 ∧
    (167772161 ≠ (⟨167772161, 167772162, 167772160, 30⟩ : CidrRange).network ∧
      167772161 ≠ broadcastOf ⟨167772161, 167772162, 167772160, 30⟩) := by
  refine ⟨by decide, by norm_num, by decide, ?_⟩
  exact (C4_cidr_usable_host_range.1 ("10.0.0.0/30".data) _ (by decide)).1
    (by norm_num) 5 167772161 (by decide)

/-- Iterating from the saturated top address is a fixpoint: every step yields
`255.255.255.255` again and the iterator never signals its end. -/
theorem iterRun_top_fixpoint : ∀ fuel,
    iterRun fuel ⟨2 ^ 32 - 1, 2 ^ 32 - 1⟩ =
      (List.replicate fuel (2 ^ 32 - 1), false) := by
  intro fuel
  induction fuel with
  | zero => rfl
  | succ fuel ih =>
    rw [iterRun]
    have hnext : cidrNext ⟨2 ^ 32 - 1, 2 ^ 32 - 1⟩ =
        some (2 ^ 32 - 1, ⟨2 ^ 32 - 1, 2 ^ 32 - 1⟩) := by decide
    rw [hnext]
    simp only [ih, List.replicate_succ]

/-- C9 (code defect): parsing the valid specification `255.255.255.255/32`
succeeds with the one-host range at the top address, but its iterator never
terminates: after any number of steps it has yielded that many copies of
`255.255.255.255` and has not signalled its end (the saturating increment
pins the cursor at the top), so the exposed host sequence is neither finite
nor duplicate-free there. -/
theorem C9_cidr_iterator_never_ends_at_top :
    cidrParse ("255.255.255.255/32".data) =
      some ⟨2 ^ 32 - 1, 2 ^ 32 - 1, 2 ^ 32 - 1, 32⟩ ∧
    ∀ fuel, iterRun fuel ⟨2 ^ 32 - 1, 2 ^ 32 - 1⟩ =
      (List.replicate fuel (2 ^ 32 - 1), false) :=
  ⟨by decide, iterRun_top_fixpoint⟩

/-- C6: formatting the parse of a well-formed dotted numeric string gives the
string back, and parsing the empty string, a lone dot, or a string with a
non-numeric component fails. -/
theorem C6_oid_parse_format_roundtrip :
    (∀ cs, WellFormedDotted cs →
      ∃ o, oidFromChars cs = some o ∧ oidToChars o = cs) ∧
    oidFromChars ("".data) = none ∧
    oidFromChars (".".data) = none ∧
    oidFromChars ("1.a.2".data) = none := by
  refine ⟨?_, by decide, by decide, by decide⟩
  rintro cs ⟨arcs, hne, hlt, rfl⟩
  refine ⟨⟨arcs⟩, ?_, rfl⟩
  have hparts : ∀ p ∈ arcs.map natToChars, ∀ c ∈ p, c ≠ '.' := by
    intro p hp c hc
    rcases List.mem_map.mp hp with ⟨a, _, rfl⟩
    exact ((natToChars_spec a).2.1 c hc).2.1
  have hsplit : splitDot (oidToChars ⟨arcs⟩) = arcs.map natToChars := by
    rw [oidToChars]
    exact splitDot_dotJoin (arcs.map natToChars) (by simpa using hne) hparts
  rw [oidFromChars, hsplit, oidGo_map arcs hlt]
  simp [hne]

/-- Witness for C6: the string "1.3.6" is well-formed and round-trips. -/
theorem C6_oid_parse_format_roundtrip_witness :
    WellFormedDotted ("1.3.6".data) ∧
    ∃ o, oidFromChars ("1.3.6".data) = some o ∧ oidToChars o = "1.3.6".data := by
  have hwf : WellFormedDotted ("1.3.6".data) := ⟨[1, 3, 6], by decide, by decide, by decide⟩
  exact ⟨hwf, C6_oid_parse_format_roundtrip.1 ("1.3.6".data) hwf⟩

/-- Re-joining the chunks gives back the original identifier list. -/
theorem chunksOfMax_flatten (l : List Oid) : (chunksOfMax l).flatten = l := by
  induction l using chunksOfMax.induct with
  | case1 => rw [chunksOfMax]; simp
  | case2 l h ih =>
    rw [chunksOfMax]
    simp only [h, dite_false, List.flatten_cons, ih, List.take_append_drop]

/-- Every chunk respects the batch-size bound. -/
theorem chunksOfMax_length_le (l : List Oid) :
    ∀ chunk ∈ chunksOfMax l, chunk.length ≤ MAX_OIDS_PER_GET := by
  induction l using chunksOfMax.induct with
  | case1 => rw [chunksOfMax]; simp
  | case2 l h ih =>
    rw [chunksOfMax]
    simp only [h, dite_false, List.mem_cons]
    intro chunk hchunk
    rcases hchunk with rfl | hchunk
    · exact List.length_take_le _ _
    · exact ih chunk hchunk

/-- A flattened batch of GET exchanges equals one exchange over the
flattened identifier list. -/
theorem get_many_flatten (env : Oid → SnmpValue) (L : List (List Oid)) :
    (L.map (get_many env)).flatten = get_many env L.flatten := by
  induction L with
  | nil => rfl
  | cons c rest ih => simp [get_many, ih, List.map_append]

/-- Chunking a non-empty list yields at least one chunk. -/
theorem chunksOfMax_ne_nil (l : List Oid) (h : l ≠ []) : chunksOfMax l ≠ [] := by
  rw [chunksOfMax]
  simp [h]

/-- C5: an identifier list longer than the batch size of 24 is split into at
least two batched queries of at most 24 identifiers each, and the
concatenated result varbinds pair the requested identifiers in submission
order. -/
theorem C5_get_batching_preserves_order (env : Oid → SnmpValue) (oids : List Oid)
    (h : oids.length > MAX_OIDS_PER_GET) :
    2 ≤ (chunksOfMax oids).length ∧
    (∀ chunk ∈ chunksOfMax oids, chunk.length ≤ MAX_OIDS_PER_GET) ∧
    async_get env oids = oids.map (fun oid => ⟨oid, env oid⟩) := by
  refine ⟨?_, chunksOfMax_length_le oids, ?_⟩
  · have hne : oids ≠ [] := by
      intro hnil; rw [hnil] at h; simp [MAX_OIDS_PER_GET] at h
    have hdrop : oids.drop MAX_OIDS_PER_GET ≠ [] := by
      intro hnil
      have := congrArg List.length hnil
      simp only [List.length_drop, List.length_nil] at this
      omega
    rw [chunksOfMax]
    simp only [hne, dite_false, List.length_cons]
    have := chunksOfMax_ne_nil _ hdrop
    have hpos : 0 < (chunksOfMax (oids.drop MAX_OIDS_PER_GET)).length :=
      List.length_pos.mpr this
    omega
  · unfold async_get
    rw [get_many_flatten, chunksOfMax_flatten]
    rfl

/-- Witness for C5: 25 identifiers split into a batch of 24 and a batch of 1,
results concatenated in submission order. -/
theorem C5_get_batching_preserves_order_witness :
    ((List.range 25).map (fun i => Oid.mk [i])).length > MAX_OIDS_PER_GET ∧
    (2 ≤ (chunksOfMax ((List.range 25).map (fun i => Oid.mk [i]))).length ∧
      (∀ chunk ∈ chunksOfMax ((List.range 25).map (fun i => Oid.mk [i])),
        chunk.length ≤ MAX_OIDS_PER_GET) ∧
      async_get (fun _ => SnmpValue.null) ((List.range 25).map (fun i => Oid.mk [i])) =
        ((List.range 25).map (fun i => Oid.mk [i])).map
          (fun oid => ⟨oid, SnmpValue.null⟩)) :=
  ⟨by decide,
    C5_get_batching_preserves_order (fun _ => SnmpValue.null)
      ((List.range 25).map (fun i => Oid.mk [i])) (by decide)⟩

/-- C3 counterexample: a GET attempt failing with a community mismatch IS
re-issued like any other failure — with one retry configured, a first attempt
failing with `communityMismatch` followed by a successful attempt yields the
success, proving the request was retried after the authentication failure. -/
theorem C3_counterexample_auth_failure_is_retried :
    get_many_with_retries ("192.168.1.10:161") 2000 1
      (fun n => if n = 0 then .err .communityMismatch
        else .ok [⟨⟨[1, 3, 6, 1]⟩, .counter32 5⟩]) 0 =
      .ok [⟨⟨[1, 3, 6, 1]⟩, .counter32 5⟩] := by
  rw [get_many_with_retries]
  norm_num
  rw [get_many_with_retries]
  norm_num

/-- Helper for C3: when every attempt fails with a community mismatch, the
surfaced error is the distinct `SnmpAuth` kind, whatever the retry budget. -/
theorem get_many_all_mismatch_gives_auth (address : String) (timeout_ms retries : Nat) :
    ∀ d attempts, retries - attempts = d →
      get_many_with_retries address timeout_ms retries
          (fun _ => .err .communityMismatch) attempts =
        .error (.SnmpAuth address (some (snmp2ErrorDisplay .communityMismatch))) := by
  intro d
  induction d with
  | zero =>
    intro attempts h
    rw [get_many_with_retries]
    have hlt : ¬ attempts < retries := by omega
    simp [hlt, map_snmp2_error]
  | succ d ih =>
    intro attempts h
    rw [get_many_with_retries]
    have hlt : attempts < retries := by omega
    simp only [hlt, dif_pos]
    exact ih (attempts + 1) (by omega)

/-- C3 amended: authentication-mismatch failures are retried like any other
transport failure, but when retries are exhausted the surfaced error is
classified distinctly as the authentication-mismatch kind (`SnmpAuth`), never
as a generic failure. -/
theorem C3_amended_auth_classified_distinctly (address : String)
    (timeout_ms retries attempts : Nat) (vbs : List SnmpVarBind) :
    (∃ details,
      get_many_with_retries address timeout_ms retries
          (fun _ => .err .communityMismatch) attempts =
        .error (.SnmpAuth address details)) ∧
    (0 < retries →
      get_many_with_retries address timeout_ms retries
          (fun n => if n = 0 then .err .communityMismatch else .ok vbs) 0 =
        .ok vbs) := by
  constructor
  · exact ⟨some (snmp2ErrorDisplay .communityMismatch),
      get_many_all_mismatch_gives_auth address timeout_ms retries
        (retries - attempts) attempts rfl⟩
  · intro hret
    rw [get_many_with_retries]
    simp only [if_pos rfl, hret, dif_pos]
    rw [get_many_with_retries]
    norm_num

/-- Witness for C3's amended theorem: retries = 1, every attempt a community
mismatch surfaces `SnmpAuth`; a mismatch followed by success returns the data. -/
theorem C3_amended_auth_classified_distinctly_witness :
    (∃ details,
      get_many_with_retries ("192.168.1.10:161") 2000 1
          (fun _ => .err .communityMismatch) 0 =
        .error (.SnmpAuth ("192.168.1.10:161") details)) ∧
    ((0 : Nat) < 1 ∧
      get_many_with_retries ("192.168.1.10:161") 2000 1
          (fun n => if n = 0 then .err .communityMismatch
            else .ok [⟨⟨[1, 3, 6, 1]⟩, .counter32 5⟩]) 0 =
        .ok [⟨⟨[1, 3, 6, 1]⟩, .counter32 5⟩]) := by
  have h := C3_amended_auth_classified_distinctly ("192.168.1.10:161") 2000 1 0
    [⟨⟨[1, 3, 6, 1]⟩, .counter32 5⟩]
  exact ⟨h.1, by norm_num, h.2 (by norm_num)⟩

/-- Witness for C10: black/white = 100 and total = 999 present, color absent;
the mode is total-only, the resolved black/white value is dropped from the
snapshot, its audit identifier kept, and no missing-bw warning emitted. -/
theorem C10_total_only_omits_resolved_split_witness :
    (resolve_counters 1725000000 ⟨[⟨[1, 2, 3, 1]⟩], [⟨[1, 2, 3, 2]⟩], [⟨[1, 2, 3, 3]⟩]⟩
        [⟨⟨[1, 2, 3, 1]⟩, .counter32 100⟩, ⟨⟨[1, 2, 3, 3]⟩, .counter32 999⟩]).snapshot.bw =
      none ∧
    (resolve_counters 1725000000 ⟨[⟨[1, 2, 3, 1]⟩], [⟨[1, 2, 3, 2]⟩], [⟨[1, 2, 3, 3]⟩]⟩
        [⟨⟨[1, 2, 3, 1]⟩, .counter32 100⟩,
          ⟨⟨[1, 2, 3, 3]⟩, .counter32 999⟩]).snapshot.source_oids.bw =
      some (oidToChars ⟨[1, 2, 3, 1]⟩) ∧
    CounterWarning.missing .bw ∉
      (resolve_counters 1725000000 ⟨[⟨[1, 2, 3, 1]⟩], [⟨[1, 2, 3, 2]⟩], [⟨[1, 2, 3, 3]⟩]⟩
        [⟨⟨[1, 2, 3, 1]⟩, .counter32 100⟩, ⟨⟨[1, 2, 3, 3]⟩, .counter32 999⟩]).warnings := by
  have h := (C10_total_only_omits_resolved_split 1725000000
    ⟨[⟨[1, 2, 3, 1]⟩], [⟨[1, 2, 3, 2]⟩], [⟨[1, 2, 3, 3]⟩]⟩
    [⟨⟨[1, 2, 3, 1]⟩, .counter32 100⟩, ⟨⟨[1, 2, 3, 3]⟩, .counter32 999⟩]).2 (by decide)
  have hb := h.2.2.1 100 ⟨[1, 2, 3, 1]⟩ (by decide) (by decide)
  exact ⟨h.1, hb.1, hb.2⟩
